import Mathlib

/-!
Verification of the in-memory task store and API layer of the
`examples/polyglot-fullstack/backend` application (files
`app/models.py`, `app/store.py`, `app/main.py`).

Modelling conventions:
* Timestamps (`datetime.now(UTC)`) are modelled as natural-number ticks;
  each operation that reads the clock takes the current tick as an
  explicit argument.
* UUIDs are modelled by their 128-bit integer value as a `Nat`;
  `uuid4()` is modelled as an explicit fresh-id argument (the generator is
  collision-resistant, so freshness appears as a hypothesis where needed).
* The Python `dict` keyed by UUID is modelled as an association list
  (`List Task`) with at most one record per id; `d[k] = v` replaces the
  first record with that key in place, otherwise appends (Python dicts
  preserve insertion order and update values in place).
* Pydantic declares `Task.title : str` and `Task.completed : bool`, but
  `Task.model_copy(update=...)` performs no validation, and `TaskUpdate`
  annotates both fields as `... | None`; a record can therefore hold
  `None` in either field at runtime.  The Lean fields are `Option`-typed
  to capture the Python runtime values.
* Response-model re-serialization by the framework is out of scope (the
  spec treats JSON encoding as an external collaborator); route functions
  return the handler outcome and the resulting store state.
-/

namespace App

/-- A task record as held by the store at runtime.  Pydantic's model
declares `title: str` and `completed: bool`, but `model_copy` bypasses
validation, so the runtime object can hold `None` in either field; the
`Option` types capture exactly the Python runtime values. -/
structure Task where
  id : Nat
  title : Option String
  completed : Option Bool
  created_at : Nat
  updated_at : Nat
deriving DecidableEq, Repr

/-- Request body for creating a task (`TaskCreate`): `title` is a
required string (validated at the boundary, see `validate_TaskCreate`). -/
structure TaskCreate where
  title : String
deriving DecidableEq, Repr

/-- Tri-state field of a partial update: pydantic distinguishes a field
that was never supplied (`unset`, excluded by
`model_dump(exclude_unset=True)`) from one explicitly supplied. -/
inductive FieldVal (α : Type) where
  | unset : FieldVal α
  | set : α → FieldVal α
deriving DecidableEq, Repr

/-- Whether the field would appear in `model_dump(exclude_unset=True)`. -/
def FieldVal.isSet {α : Type} : FieldVal α → Bool
  | .unset => false
  | .set _ => true

/-- Request body for updating a task (`TaskUpdate`): both fields are
optional, and each is annotated `... | None`, so an explicitly supplied
value may itself be `none` (JSON `null` passes validation). -/
structure TaskUpdate where
  title : FieldVal (Option String)
  completed : FieldVal (Option Bool)
deriving DecidableEq, Repr

/-- `if update_data:` — whether `model_dump(exclude_unset=True)` is a
non-empty dict, i.e. at least one field was explicitly supplied. -/
def TaskUpdate.hasSetField (d : TaskUpdate) : Bool :=
  d.title.isSet || d.completed.isSet

/-- The store's state: the Python `dict[UUID, Task]` as an association
list ordered by insertion, with at most one record per id. -/
abbrev Store := List Task

namespace TaskStore

/-- Python dict assignment `self._tasks[k] = v`: replace the record with
that key in place if present, otherwise append. -/
def dictSet : Store → Task → Store
  | [], t => [t]
  | u :: rest, t => if u.id = t.id then t :: rest else u :: dictSet rest t

/-- `self._tasks.get(task_id)`: lookup by id, `None` if not found. -/
def get (s : Store) (i : Nat) : Option Task :=
  s.find? (fun t => t.id == i)

/-- `list_all`: `sorted(self._tasks.values(), key=lambda t: t.created_at,
reverse=True)`.  Python's `sorted` is a stable sort; with `reverse=True`
it is the stable sort by the relation "`b.created_at ≤ a.created_at`"
(ties keep insertion order), which is exactly `List.mergeSort` with that
comparator. -/
def list_all (s : Store) : List Task :=
  s.mergeSort (fun a b => decide (b.created_at ≤ a.created_at))

/-- `create`: build the record with a fresh id, `completed=False`,
`created_at = updated_at = now`, store it and return it. -/
def create (s : Store) (freshId : Nat) (now : Nat) (data : TaskCreate) :
    Task × Store :=
  let task : Task :=
    { id := freshId, title := some data.title, completed := some false,
      created_at := now, updated_at := now }
  (task, dictSet s task)

/-- `task.model_copy(update=update_data)` where `update_data` is the
dump of `d` plus `updated_at = now`: overwrite exactly the supplied
fields, copy the rest, with no validation. -/
def applyDump (task : Task) (d : TaskUpdate) (now : Nat) : Task :=
  { task with
    title := match d.title with | .unset => task.title | .set v => v
    completed := match d.completed with | .unset => task.completed | .set v => v
    updated_at := now }

/-- `update`: `None` when the id is unknown; when the partial carries no
fields, return the existing record unchanged; otherwise merge and store
the copied record. -/
def update (s : Store) (i : Nat) (now : Nat) (d : TaskUpdate) :
    Option Task × Store :=
  match get s i with
  | none => (none, s)
  | some task =>
    if d.hasSetField then
      let updated_task := applyDump task d now
      (some updated_task, dictSet s updated_task)
    else
      (some task, s)

/-- `delete`: remove the record if present and report whether it was. -/
def delete (s : Store) (i : Nat) : Bool × Store :=
  if s.any (fun t => t.id == i) then
    (true, s.filter (fun t => !(t.id == i)))
  else
    (false, s)

/-- `clear`: remove all records. -/
def clear (_ : Store) : Store := []

end TaskStore

/-! ## API layer (`app/main.py`)

Path parameters declared as `task_id: UUID` are parsed by the framework
before the handler runs; an unparsable value is rejected with a 422
validation-error response (FastAPI `RequestValidationError`), and so is a
request body rejected by the pydantic model.  Handlers raise
`HTTPException(404, "Task not found")` for unknown ids. -/

/-- Is `pat` a prefix of `cs`?  (`Char` lists.) -/
def charPrefix : List Char → List Char → Bool
  | [], _ => true
  | _ :: _, [] => false
  | p :: ps, c :: cs => p == c && charPrefix ps cs

/-- `str.replace(pat, "")` for a non-empty pattern: delete every
non-overlapping occurrence of `pat`, scanning left to right. -/
def removeSub (pat : List Char) : List Char → List Char
  | [] => []
  | c :: rest =>
    if h : pat ≠ [] ∧ charPrefix pat (c :: rest) = true then
      removeSub pat ((c :: rest).drop pat.length)
    else
      c :: removeSub pat rest
termination_by cs => cs.length
decreasing_by
  · simp only [List.length_drop, List.length_cons]
    have hp : 0 < pat.length := List.length_pos.mpr h.1
    omega
  · simp

/-- Curly-brace characters, stripped from both ends by
`str.strip` with the brace character set. -/
def isBraceChar (c : Char) : Bool := c == '\x7b' || c == '\x7d'

/-- Python `str.strip(chars)`: drop characters of the set from both
ends. -/
def pyStrip (p : Char → Bool) (cs : List Char) : List Char :=
  ((cs.dropWhile p).reverse.dropWhile p).reverse

/-- Hexadecimal digit test, as accepted by `int(x, 16)`. -/
def isHexChar (c : Char) : Bool :=
  c.isDigit || ('a' ≤ c && c ≤ 'f') || ('A' ≤ c && c ≤ 'F')

/-- Value of a hexadecimal digit. -/
def hexDigitVal (c : Char) : Nat :=
  if c.isDigit then c.toNat - 48
  else if 'a' ≤ c && c ≤ 'f' then c.toNat - 97 + 10
  else c.toNat - 65 + 10

/-- CPython's `uuid.UUID(hex=s)` string parsing, used by the framework
for `task_id: UUID` path parameters: drop `urn:` and `uuid:`
occurrences, strip surrounding braces, delete hyphens, then require
exactly 32 hexadecimal digits and read them as a base-16 integer.
(`int`'s extra tolerance for underscores and surrounding whitespace
inside the 32-character field is not modelled.) -/
def pyUUID (s : String) : Option Nat :=
  let cs := removeSub "uuid:".toList (removeSub "urn:".toList s.toList)
  let cs := pyStrip isBraceChar cs
  let cs := cs.filter (fun c => !(c == '-'))
  if cs.length == 32 && cs.all isHexChar then
    some (cs.foldl (fun acc c => acc * 16 + hexDigitVal c) 0)
  else
    none

/-- A JSON body field: absent from the object, explicit `null`, or a
value of the expected JSON type. -/
inductive JsonVal (α : Type) where
  | absent : JsonVal α
  | null : JsonVal α
  | val : α → JsonVal α
deriving DecidableEq, Repr

/-- Outcome of a request, paired by the routes with the store state:
a success payload, an `HTTPException(status, detail)`, or the
framework's 422 validation-error response (whose body carries a list of
error objects, not a plain detail string). -/
inductive Response (α : Type) where
  | ok : Nat → α → Response α
  | httpError : Nat → String → Response α
  | validationError : Response α
deriving DecidableEq, Repr

/-- HTTP status code of a response. -/
def Response.status {α : Type} : Response α → Nat
  | .ok c _ => c
  | .httpError c _ => c
  | .validationError => 422

/-- Pydantic validation of a `TaskCreate` body: `title` is required
(absent and `null` are rejected — the annotation is plain `str`) and
must have 1–200 characters (Unicode code points). -/
def validate_TaskCreate (title : JsonVal String) : Option TaskCreate :=
  match title with
  | .val s => if 1 ≤ s.length && s.length ≤ 200 then some ⟨s⟩ else none
  | _ => none

/-- Pydantic validation of a `TaskUpdate` body: both fields optional;
explicit `null` passes for both (the annotations are `str | None` and
`bool | None`, and the length constraints apply only to the `str`
branch); a string title must have 1–200 characters. -/
def validate_TaskUpdate (title : JsonVal String) (completed : JsonVal Bool) :
    Option TaskUpdate :=
  let tv : Option (FieldVal (Option String)) :=
    match title with
    | .absent => some FieldVal.unset
    | .null => some (FieldVal.set none)
    | .val s =>
      if 1 ≤ s.length && s.length ≤ 200 then some (FieldVal.set (some s))
      else none
  let cv : Option (FieldVal (Option Bool)) :=
    match completed with
    | .absent => some FieldVal.unset
    | .null => some (FieldVal.set none)
    | .val b => some (FieldVal.set (some b))
  match tv, cv with
  | some t, some c => some ⟨t, c⟩
  | _, _ => none

/-- `POST /api/tasks`: validate the body, then `store.create`, 201. -/
def create_task (s : Store) (freshId : Nat) (now : Nat)
    (title : JsonVal String) : Response Task × Store :=
  match validate_TaskCreate title with
  | none => (.validationError, s)
  | some data =>
    let r := TaskStore.create s freshId now data
    (.ok 201 r.1, r.2)

/-- `GET /api/tasks/{task_id}`: parse the path parameter, look the task
up, 404 with detail "Task not found" when absent. -/
def get_task (s : Store) (rawId : String) : Response Task × Store :=
  match pyUUID rawId with
  | none => (.validationError, s)
  | some i =>
    match TaskStore.get s i with
    | none => (.httpError 404 "Task not found", s)
    | some task => (.ok 200 task, s)

/-- `PATCH /api/tasks/{task_id}`: parse the path parameter and validate
the body, then `store.update`; 404 with detail "Task not found" when the
id is unknown. -/
def update_task (s : Store) (rawId : String) (now : Nat)
    (title : JsonVal String) (completed : JsonVal Bool) :
    Response Task × Store :=
  match pyUUID rawId with
  | none => (.validationError, s)
  | some i =>
    match validate_TaskUpdate title completed with
    | none => (.validationError, s)
    | some d =>
      match TaskStore.update s i now d with
      | (none, s') => (.httpError 404 "Task not found", s')
      | (some task, s') => (.ok 200 task, s')

/-- `DELETE /api/tasks/{task_id}`: parse the path parameter, then
`store.delete`; 204 on success, 404 with detail "Task not found" when
the id did not exist. -/
def delete_task (s : Store) (rawId : String) : Response Unit × Store :=
  match pyUUID rawId with
  | none => (.validationError, s)
  | some i =>
    let r := TaskStore.delete s i
    if r.1 then (.ok 204 (), r.2) else (.httpError 404 "Task not found", r.2)

/-! ## Operation sequences over the store (for the invariants) -/

/-- One store mutation, with the clock value and fresh id it observes. -/
inductive Op where
  | createOp : Nat → Nat → TaskCreate → Op
  | updateOp : Nat → Nat → TaskUpdate → Op
  | deleteOp : Nat → Op
  | clearOp : Op
deriving DecidableEq, Repr

/-- The store state after one operation. -/
def applyOp (s : Store) : Op → Store
  | .createOp freshId now d => (TaskStore.create s freshId now d).2
  | .updateOp i now d => (TaskStore.update s i now d).2
  | .deleteOp i => (TaskStore.delete s i).2
  | .clearOp => TaskStore.clear s

/-- The store state after a sequence of operations. -/
def run (s : Store) : List Op → Store
  | [] => s
  | o :: os => run (applyOp s o) os

/-- Clock monotonicity at one step: an update's `now` is not earlier
than the creation time of the task it touches.  (Creates need no side
condition: they stamp both timestamps with the same `now`.) -/
def clockOkOp (s : Store) : Op → Bool
  | .updateOp i now _ =>
    match TaskStore.get s i with
    | some task => task.created_at ≤ now
    | none => true
  | _ => true

/-- Clock monotonicity along a whole sequence of operations. -/
def clockOk : Store → List Op → Bool
  | _, [] => true
  | s, o :: os => clockOkOp s o && clockOk (applyOp s o) os

/-- The timestamp invariant: every record has `created_at ≤ updated_at`. -/
def timesOk (s : Store) : Bool :=
  s.all (fun t => t.created_at ≤ t.updated_at)

/-- A sample record used to instantiate proved theorems. -/
def sampleTask : Task :=
  { id := 7, title := some "walk the dog", completed := some false,
    created_at := 5, updated_at := 6 }

/-! ## Lemmas about the store primitives -/

namespace TaskStore

theorem get_eq_some_id {s : Store} {i : Nat} {t : Task}
    (h : get s i = some t) : t.id = i := by
  have := List.find?_some h
  simpa using this

theorem mem_of_get_eq_some {s : Store} {i : Nat} {t : Task}
    (h : get s i = some t) : t ∈ s :=
  List.mem_of_find?_eq_some h

theorem get_dictSet_self (s : Store) (t : Task) :
    get (dictSet s t) t.id = some t := by
  induction s with
  | nil => simp [dictSet, get]
  | cons u rest ih =>
    by_cases hu : u.id = t.id
    · simp [dictSet, hu, get]
    · simp only [dictSet, hu, if_false, get] at ih ⊢
      rw [List.find?_cons_of_neg _ (by simpa using hu)]
      exact ih

theorem get_dictSet_ne (s : Store) (t : Task) (j : Nat) (hj : j ≠ t.id) :
    get (dictSet s t) j = get s j := by
  induction s with
  | nil =>
    simp only [dictSet, get, List.find?]
    have : (t.id == j) = false := by
      simp only [beq_eq_false_iff_ne, ne_eq]
      exact fun h => hj h.symm
    simp [this]
  | cons u rest ih =>
    have htj : t.id ≠ j := Ne.symm hj
    by_cases hu : u.id = t.id
    · have huj : u.id ≠ j := hu ▸ htj
      simp only [dictSet, hu, if_true, get]
      rw [List.find?_cons_of_neg _ (by simpa using htj),
        List.find?_cons_of_neg _ (by simpa using huj)]
    · simp only [dictSet, hu, if_false, get] at ih ⊢
      by_cases hyj : u.id = j
      · rw [List.find?_cons_of_pos _ (by simpa using hyj),
          List.find?_cons_of_pos _ (by simpa using hyj)]
      · rw [List.find?_cons_of_neg _ (by simpa using hyj),
          List.find?_cons_of_neg _ (by simpa using hyj)]
        exact ih

theorem mem_dictSet {s : Store} {t u : Task} (h : u ∈ dictSet s t) :
    u = t ∨ u ∈ s := by
  induction s with
  | nil => simpa [dictSet] using h
  | cons v rest ih =>
    by_cases hv : v.id = t.id
    · simp only [dictSet, hv, if_true, List.mem_cons] at h
      rcases h with h | h
      · exact Or.inl h
      · exact Or.inr (List.mem_cons_of_mem _ h)
    · simp only [dictSet, hv, if_false, List.mem_cons] at h
      rcases h with h | h
      · exact Or.inr (by simp [h])
      · rcases ih h with h' | h'
        · exact Or.inl h'
        · exact Or.inr (List.mem_cons_of_mem _ h')

theorem any_id_eq_get_isSome (s : Store) (i : Nat) :
    s.any (fun t => t.id == i) = (get s i).isSome := by
  induction s with
  | nil => simp [get]
  | cons u rest ih =>
    by_cases hu : u.id = i
    · simp [get, hu]
    · have hb : (u.id == i) = false := by simpa using hu
      simp only [List.any_cons, get] at ih ⊢
      rw [List.find?_cons_of_neg _ (by simpa using hu), hb, Bool.false_or]
      exact ih

theorem get_removeAll_self (s : Store) (i : Nat) :
    get (s.filter (fun t => !(t.id == i))) i = none := by
  simp only [get, List.find?_eq_none]
  intro t ht
  have := (List.mem_filter.mp ht).2
  simpa using this

theorem get_removeAll_ne (s : Store) (i j : Nat) (hj : j ≠ i) :
    get (s.filter (fun t => !(t.id == i))) j = get s j := by
  induction s with
  | nil => simp [get]
  | cons u rest ih =>
    by_cases hu : u.id = i
    · have hj' : u.id ≠ j := hu ▸ Ne.symm hj
      simp only [get, List.filter_cons]
      rw [if_neg (by simp [hu])]
      rw [List.find?_cons_of_neg _ (by simpa using hj')]
      simpa [get] using ih
    · simp only [get, List.filter_cons]
      rw [if_pos (by simp [hu])]
      by_cases huj : u.id = j
      · rw [List.find?_cons_of_pos _ (by simpa using huj),
          List.find?_cons_of_pos _ (by simpa using huj)]
      · rw [List.find?_cons_of_neg _ (by simpa using huj),
          List.find?_cons_of_neg _ (by simpa using huj)]
        simpa [get] using ih

/-- Shared shape of `update` on a known id when at least one field is
supplied: the merged record is stored and returned. -/
theorem update_set_eq {s : Store} {i now : Nat} {task : Task}
    {d : TaskUpdate} (h : get s i = some task) (hd : d.hasSetField = true) :
    update s i now d
      = (some (applyDump task d now), dictSet s (applyDump task d now)) ∧
    get (dictSet s (applyDump task d now)) i = some (applyDump task d now) := by
  refine ⟨by simp [update, h, hd], ?_⟩
  have hid : task.id = i := get_eq_some_id h
  have hone : (applyDump task d now).id = i := by
    simpa [applyDump] using hid
  have hself := get_dictSet_self s (applyDump task d now)
  rwa [hone] at hself

end TaskStore

/-! ## The claims -/

/-- Claim C1: for every stored task, an `update` whose partial carries
no fields (nothing was supplied) returns the existing record unchanged —
`updated_at` untouched — and leaves the store's state unchanged. -/
theorem C1_update_empty_noop (s : Store) (i now : Nat) (task : Task)
    (d : TaskUpdate) (hd : d.hasSetField = false)
    (h : TaskStore.get s i = some task) :
    TaskStore.update s i now d = (some task, s) := by
  simp [TaskStore.update, h, hd]

/-- Witness for C1: a concrete store, id and empty partial. -/
theorem C1_update_empty_noop_witness :
    TaskUpdate.hasSetField ⟨FieldVal.unset, FieldVal.unset⟩ = false ∧
    TaskStore.get [sampleTask] 7 = some sampleTask ∧
    TaskStore.update [sampleTask] 7 99 ⟨FieldVal.unset, FieldVal.unset⟩
      = (some sampleTask, [sampleTask]) :=
  ⟨by decide, by decide,
    C1_update_empty_noop [sampleTask] 7 99 sampleTask
      ⟨FieldVal.unset, FieldVal.unset⟩ (by decide) (by decide)⟩

/-- Claim C2: for every stored task with known id, an `update` whose
partial supplies at least one field stores and returns a record in which
exactly the supplied fields are overwritten, all other fields are copied
unchanged from the prior version, and `updated_at` is set to now; the
new record replaces the stored one. -/
theorem C2_update_merge (s : Store) (i now : Nat) (task : Task)
    (d : TaskUpdate) (h : TaskStore.get s i = some task)
    (hd : d.hasSetField = true) :
    TaskStore.update s i now d
      = (some (TaskStore.applyDump task d now),
         TaskStore.dictSet s (TaskStore.applyDump task d now)) ∧
    (TaskStore.applyDump task d now).id = task.id ∧
    (TaskStore.applyDump task d now).created_at = task.created_at ∧
    (TaskStore.applyDump task d now).updated_at = now ∧
    (TaskStore.applyDump task d now).title
      = (match d.title with | .unset => task.title | .set v => v) ∧
    (TaskStore.applyDump task d now).completed
      = (match d.completed with | .unset => task.completed | .set v => v) ∧
    TaskStore.get (TaskStore.update s i now d).2 i
      = some (TaskStore.applyDump task d now) := by
  obtain ⟨h1, h2⟩ := TaskStore.update_set_eq h hd
  exact ⟨h1, rfl, rfl, rfl, rfl, rfl, by rw [h1]; exact h2⟩

/-- Witness for C2: updating only `completed` to `true` on a concrete
store changes only `completed` and `updated_at`; `title` and
`created_at` are unchanged, and the stored record is replaced. -/
theorem C2_update_merge_witness :
    TaskStore.get [sampleTask] 7 = some sampleTask ∧
    TaskUpdate.hasSetField ⟨FieldVal.unset, FieldVal.set (some true)⟩ = true ∧
    TaskStore.update [sampleTask] 7 9 ⟨FieldVal.unset, FieldVal.set (some true)⟩
      = (some { id := 7, title := some "walk the dog", completed := some true,
                created_at := 5, updated_at := 9 },
         [{ id := 7, title := some "walk the dog", completed := some true,
            created_at := 5, updated_at := 9 }]) :=
  ⟨by decide, by decide, by
    have h := C2_update_merge [sampleTask] 7 9 sampleTask
      ⟨FieldVal.unset, FieldVal.set (some true)⟩ (by decide) (by decide)
    exact h.1.trans (by decide)⟩

/-- Claim C10: for every stored task with known id, an update that
explicitly supplies `title` as `null` passes the update model's
validation and is applied by the store: the stored record's title is
replaced by `none` and `updated_at` is bumped, because
`model_dump(exclude_unset=True)` keeps explicitly-set fields even when
their value is `None`, and `model_copy` applies them unvalidated. -/
theorem C10_explicit_null_title (s : Store) (i now : Nat) (task : Task)
    (h : TaskStore.get s i = some task) :
    validate_TaskUpdate JsonVal.null JsonVal.absent
      = some ⟨FieldVal.set none, FieldVal.unset⟩ ∧
    TaskStore.update s i now ⟨FieldVal.set none, FieldVal.unset⟩
      = (some (TaskStore.applyDump task ⟨FieldVal.set none, FieldVal.unset⟩ now),
         TaskStore.dictSet s
           (TaskStore.applyDump task ⟨FieldVal.set none, FieldVal.unset⟩ now)) ∧
    (TaskStore.applyDump task ⟨FieldVal.set none, FieldVal.unset⟩ now).title
      = none ∧
    (TaskStore.applyDump task ⟨FieldVal.set none, FieldVal.unset⟩ now).updated_at
      = now ∧
    (TaskStore.applyDump task ⟨FieldVal.set none, FieldVal.unset⟩ now).created_at
      = task.created_at ∧
    TaskStore.get (TaskStore.update s i now ⟨FieldVal.set none, FieldVal.unset⟩).2 i
      = some (TaskStore.applyDump task ⟨FieldVal.set none, FieldVal.unset⟩ now) := by
  obtain ⟨h1, h2⟩ := @TaskStore.update_set_eq s i now task
    ⟨FieldVal.set none, FieldVal.unset⟩ h (by decide)
  exact ⟨by decide, h1, rfl, rfl, rfl, by rw [h1]; exact h2⟩

/-- Witness for C10: applying a `title: null` update to a concrete
stored task leaves a record whose title is `none`. -/
theorem C10_explicit_null_title_witness :
    TaskStore.get [sampleTask] 7 = some sampleTask ∧
    TaskStore.update [sampleTask] 7 11 ⟨FieldVal.set none, FieldVal.unset⟩
      = (some { id := 7, title := none, completed := some false,
                created_at := 5, updated_at := 11 },
         [{ id := 7, title := none, completed := some false,
            created_at := 5, updated_at := 11 }]) :=
  ⟨by decide, by
    have h := C10_explicit_null_title [sampleTask] 7 11 sampleTask (by decide)
    exact h.2.1.trans (by decide)⟩

/-- Claim C5: for every valid title (1–200 characters) and fresh id
(`uuid4` is modelled as an external input whose collision-resistance is
the freshness hypothesis), `create` returns and stores a task with that
id — distinct from every live task's id — the given title,
`completed = false`, and `created_at = updated_at = now`; a subsequent
`get` with the returned id returns that same task. -/
theorem C5_create_then_get (s : Store) (freshId now : Nat) (t : String)
    (hval : 1 ≤ t.length ∧ t.length ≤ 200)
    (hfresh : TaskStore.get s freshId = none) :
    (TaskStore.create s freshId now ⟨t⟩).1
      = { id := freshId, title := some t, completed := some false,
          created_at := now, updated_at := now } ∧
    (∀ u ∈ s, u.id ≠ (TaskStore.create s freshId now ⟨t⟩).1.id) ∧
    TaskStore.get (TaskStore.create s freshId now ⟨t⟩).2 freshId
      = some (TaskStore.create s freshId now ⟨t⟩).1 := by
  refine ⟨rfl, ?_, ?_⟩
  · intro u hu
    have := List.find?_eq_none.mp hfresh u hu
    simpa [TaskStore.create] using this
  · have := TaskStore.get_dictSet_self s (TaskStore.create s freshId now ⟨t⟩).1
    simpa [TaskStore.create] using this

/-- Witness for C5: creating a task with a concrete valid title in a
concrete store where the generated id is fresh. -/
theorem C5_create_then_get_witness :
    (1 ≤ ("buy milk" : String).length ∧ ("buy milk" : String).length ≤ 200) ∧
    TaskStore.get [sampleTask] 3 = none ∧
    (TaskStore.create [sampleTask] 3 4 ⟨"buy milk"⟩).1
      = { id := 3, title := some "buy milk", completed := some false,
          created_at := 4, updated_at := 4 } ∧
    TaskStore.get (TaskStore.create [sampleTask] 3 4 ⟨"buy milk"⟩).2 3
      = some (TaskStore.create [sampleTask] 3 4 ⟨"buy milk"⟩).1 :=
  ⟨by decide, by decide,
    (C5_create_then_get [sampleTask] 3 4 "buy milk" (by decide) (by decide)).1,
    (C5_create_then_get [sampleTask] 3 4 "buy milk" (by decide) (by decide)).2.2⟩

unseal List.merge List.mergeSort in
/-- Claim C6: for every store state, `list_all` returns every live task
(a permutation of the store's records) sorted by `created_at` descending
(newest first), returns the empty sequence when no tasks exist, and —
being a total function — never fails; creating tasks A, B, C in that
order with strictly increasing `created_at` and then listing returns
[C, B, A]. -/
theorem C6_list_all_order (s : Store) :
    (TaskStore.list_all s).Pairwise (fun a b => b.created_at ≤ a.created_at) ∧
    (TaskStore.list_all s).Perm s ∧
    TaskStore.list_all [] = [] ∧
    TaskStore.list_all
        (TaskStore.create
          (TaskStore.create (TaskStore.create [] 1 1 ⟨"A"⟩).2 2 2 ⟨"B"⟩).2
          3 3 ⟨"C"⟩).2
      = [{ id := 3, title := some "C", completed := some false,
           created_at := 3, updated_at := 3 },
         { id := 2, title := some "B", completed := some false,
           created_at := 2, updated_at := 2 },
         { id := 1, title := some "A", completed := some false,
           created_at := 1, updated_at := 1 }] := by
  refine ⟨?_, List.mergeSort_perm s _, by decide, by decide⟩
  have hs := @List.sorted_mergeSort Task
    (fun a b => decide (b.created_at ≤ a.created_at))
    (by intro a b c h1 h2; simp only [decide_eq_true_eq] at *; omega)
    (by intro a b; simp only [Bool.or_eq_true, decide_eq_true_eq]; omega) s
  exact List.Pairwise.imp (fun hab => by simpa using hab) hs

/-- Claim C7: for every identifier, `delete` removes the record if
present — leaving every other id's record untouched — returns whether it
existed, and — being a total function — never fails; after the delete,
`get` on that id returns the absent signal and a second `delete` returns
`false`. -/
theorem C7_delete_semantics (s : Store) (i j : Nat) (hj : j ≠ i) :
    (TaskStore.delete s i).1 = (TaskStore.get s i).isSome ∧
    TaskStore.get (TaskStore.delete s i).2 i = none ∧
    TaskStore.get (TaskStore.delete s i).2 j = TaskStore.get s j ∧
    (TaskStore.delete (TaskStore.delete s i).2 i).1 = false := by
  have hany := TaskStore.any_id_eq_get_isSome s i
  by_cases hc : s.any (fun t => t.id == i) = true
  · have hdel : TaskStore.delete s i
        = (true, s.filter (fun t => !(t.id == i))) := by
      simp [TaskStore.delete, hc]
    have h2 : TaskStore.get (s.filter (fun t => !(t.id == i))) i = none :=
      TaskStore.get_removeAll_self s i
    refine ⟨by rw [hdel, ← hany, hc], by rw [hdel]; exact h2,
      by rw [hdel]; exact TaskStore.get_removeAll_ne s i j hj, ?_⟩
    rw [hdel]
    have hany2 :=
      TaskStore.any_id_eq_get_isSome (s.filter (fun t => !(t.id == i))) i
    rw [h2] at hany2
    simp only [Option.isSome_none] at hany2
    simp [TaskStore.delete, hany2]
  · have hcf : s.any (fun t => t.id == i) = false := by simpa using hc
    have hnone : TaskStore.get s i = none := by
      cases hg : TaskStore.get s i with
      | none => rfl
      | some t => rw [hg, hcf] at hany; simp at hany
    have hdel : TaskStore.delete s i = (false, s) := by
      simp [TaskStore.delete, hcf]
    refine ⟨by rw [hdel, hnone]; rfl, by rw [hdel]; exact hnone,
      by rw [hdel], by rw [hdel]; simp [TaskStore.delete, hcf]⟩

/-- Witness for C7: deleting a concrete stored task, then checking the
absent signal, the untouched other id, and the second delete. -/
theorem C7_delete_semantics_witness :
    (TaskStore.delete [sampleTask] 7).1 = (TaskStore.get [sampleTask] 7).isSome ∧
    TaskStore.get (TaskStore.delete [sampleTask] 7).2 7 = none ∧
    TaskStore.get (TaskStore.delete [sampleTask] 7).2 3
      = TaskStore.get [sampleTask] 3 ∧
    (TaskStore.delete (TaskStore.delete [sampleTask] 7).2 7).1 = false :=
  C7_delete_semantics [sampleTask] 7 3 (by decide)

/-- One step of the timestamp invariant: each operation preserves
`created_at ≤ updated_at` for every record, given the clock side
condition for that step. -/
theorem timesOk_applyOp (s : Store) (o : Op) (hs : timesOk s = true)
    (hc : clockOkOp s o = true) : timesOk (applyOp s o) = true := by
  cases o with
  | createOp fid now d =>
    simp only [applyOp, TaskStore.create, timesOk, List.all_eq_true]
    intro t ht
    rcases TaskStore.mem_dictSet ht with h | h
    · subst h; simp
    · exact List.all_eq_true.mp hs t h
  | updateOp i now d =>
    rcases hg : TaskStore.get s i with _ | task
    · simp only [applyOp, TaskStore.update, hg]
      exact hs
    · by_cases hd : d.hasSetField = true
      · have hct : task.created_at ≤ now := by
          simp only [clockOkOp, hg] at hc
          simpa using hc
        simp only [applyOp, TaskStore.update, hg, hd, if_true, timesOk,
          List.all_eq_true]
        intro t ht
        rcases TaskStore.mem_dictSet ht with h | h
        · subst h; simpa [TaskStore.applyDump] using hct
        · exact List.all_eq_true.mp hs t h
      · have hd' : d.hasSetField = false := by simpa using hd
        simp only [applyOp, TaskStore.update, hg, hd', Bool.false_eq_true,
          if_false]
        exact hs
  | deleteOp i =>
    by_cases hcnd : s.any (fun t => t.id == i) = true
    · simp only [applyOp, TaskStore.delete, hcnd, if_true, timesOk,
        List.all_eq_true]
      intro t ht
      exact List.all_eq_true.mp hs t (List.mem_of_mem_filter ht)
    · have hcnd' : s.any (fun t => t.id == i) = false := by simpa using hcnd
      simp only [applyOp, TaskStore.delete, hcnd', Bool.false_eq_true,
        if_false]
      exact hs
  | clearOp => simp [applyOp, TaskStore.clear, timesOk]

/-- Claim C8: after any sequence of create, update, delete and clear
operations starting from a store in which every record satisfies
`created_at ≤ updated_at` (in particular the empty store), every record
still satisfies `updated_at ≥ created_at`, assuming the clock is
monotone between a task's creation and its updates (`clockOk`). -/
theorem C8_updated_at_ge_created_at (s : Store) (ops : List Op)
    (hs : timesOk s = true) (hc : clockOk s ops = true) :
    timesOk (run s ops) = true := by
  induction ops generalizing s with
  | nil => simpa [run] using hs
  | cons o os ih =>
    simp only [clockOk, Bool.and_eq_true] at hc
    simp only [run]
    exact ih (applyOp s o) (timesOk_applyOp s o hs hc.1) hc.2

/-- Witness for C8: a concrete sequence exercising create, update,
delete and clear from the empty store. -/
theorem C8_updated_at_ge_created_at_witness :
    timesOk [] = true ∧
    clockOk []
      [Op.createOp 1 5 ⟨"A"⟩,
       Op.updateOp 1 6 ⟨FieldVal.unset, FieldVal.set (some true)⟩,
       Op.deleteOp 2, Op.createOp 2 7 ⟨"B"⟩, Op.clearOp,
       Op.createOp 3 8 ⟨"C"⟩] = true ∧
    timesOk (run []
      [Op.createOp 1 5 ⟨"A"⟩,
       Op.updateOp 1 6 ⟨FieldVal.unset, FieldVal.set (some true)⟩,
       Op.deleteOp 2, Op.createOp 2 7 ⟨"B"⟩, Op.clearOp,
       Op.createOp 3 8 ⟨"C"⟩]) = true :=
  ⟨by decide, by decide,
    C8_updated_at_ge_created_at []
      [Op.createOp 1 5 ⟨"A"⟩,
       Op.updateOp 1 6 ⟨FieldVal.unset, FieldVal.set (some true)⟩,
       Op.deleteOp 2, Op.createOp 2 7 ⟨"B"⟩, Op.clearOp,
       Op.createOp 3 8 ⟨"C"⟩] (by decide) (by decide)⟩

/-- Claim C9: store operations fully succeed or fully no-op: `get` never
changes the state (it is read-only, as the `get_task` route exhibits),
and `update` and `delete` on an unknown id return the absent signal and
leave the store's state exactly as it was. -/
theorem C9_atomic_noop (s : Store) (i now : Nat) (d : TaskUpdate)
    (rawId : String) (h : TaskStore.get s i = none) :
    TaskStore.update s i now d = (none, s) ∧
    TaskStore.delete s i = (false, s) ∧
    (get_task s rawId).2 = s := by
  refine ⟨by simp [TaskStore.update, h], ?_, ?_⟩
  · have hany := TaskStore.any_id_eq_get_isSome s i
    rw [h] at hany
    simp only [Option.isSome_none] at hany
    simp [TaskStore.delete, hany]
  · rcases hp : pyUUID rawId with _ | v
    · simp [get_task, hp]
    · rcases hg : TaskStore.get s v with _ | t
      · simp [get_task, hp, hg]
      · simp [get_task, hp, hg]

/-- Witness for C9: a concrete store with an unknown id and an arbitrary
raw path parameter. -/
theorem C9_atomic_noop_witness :
    TaskStore.get [sampleTask] 3 = none ∧
    TaskStore.update [sampleTask] 3 1 ⟨FieldVal.unset, FieldVal.set (some true)⟩
      = (none, [sampleTask]) ∧
    TaskStore.delete [sampleTask] 3 = (false, [sampleTask]) ∧
    (get_task [sampleTask] "nope").2 = [sampleTask] :=
  ⟨by decide,
    (C9_atomic_noop [sampleTask] 3 1 ⟨FieldVal.unset, FieldVal.set (some true)⟩
      "nope" (by decide)).1,
    (C9_atomic_noop [sampleTask] 3 1 ⟨FieldVal.unset, FieldVal.set (some true)⟩
      "nope" (by decide)).2.1,
    (C9_atomic_noop [sampleTask] 3 1 ⟨FieldVal.unset, FieldVal.set (some true)⟩
      "nope" (by decide)).2.2⟩

set_option maxRecDepth 4000 in
unseal removeSub in
/-- Claim C3, evaluated on the code: the boundary checks behave as
claimed — a 200-character title is accepted, length 201 and the empty
string are rejected by both body models, and the create route answers
422 — but the store does not always hold a valid title: a PATCH body
that explicitly supplies `title: null` passes boundary validation
(pydantic accepts `None` for `str | None`), and the store then holds a
record whose title is `none`, i.e. not a 1–200-character string.  The
final conjunct evaluates the code on that failing input. -/
theorem C3_title_invariant_violated :
    (validate_TaskCreate (JsonVal.val (String.mk (List.replicate 200 'x')))).isSome
      = true ∧
    validate_TaskCreate (JsonVal.val (String.mk (List.replicate 201 'x'))) = none ∧
    validate_TaskCreate (JsonVal.val "") = none ∧
    (validate_TaskUpdate (JsonVal.val (String.mk (List.replicate 200 'x')))
      JsonVal.absent).isSome = true ∧
    validate_TaskUpdate (JsonVal.val (String.mk (List.replicate 201 'x')))
      JsonVal.absent = none ∧
    validate_TaskUpdate (JsonVal.val "") JsonVal.absent = none ∧
    (create_task [] 1 0 (JsonVal.val "")).1.status = 422 ∧
    (validate_TaskUpdate JsonVal.null JsonVal.absent).isSome = true ∧
    TaskStore.get
      (update_task (create_task [] 1 0 (JsonVal.val "a")).2
        "00000000-0000-0000-0000-000000000001" 1 JsonVal.null JsonVal.absent).2 1
      = some { id := 1, title := none, completed := some false,
               created_at := 0, updated_at := 1 } := by
  decide

unseal removeSub in
/-- Counterexample to claim C4: on the malformed identifier
"not-a-uuid" the routes do not produce the 404 "Task not found" signal;
path-parameter parsing fails first and the framework answers with its
422 validation-error response. -/
theorem C4_counterexample :
    pyUUID "not-a-uuid" = none ∧
    (get_task [] "not-a-uuid").1 ≠ Response.httpError 404 "Task not found" ∧
    (get_task [] "not-a-uuid").1.status = 422 ∧
    (update_task [] "not-a-uuid" 0 JsonVal.absent JsonVal.absent).1.status = 422 ∧
    (delete_task [] "not-a-uuid").1.status = 422 := by
  decide

/-- Claim C4 as amended: a malformed identifier on get/update/delete is
rejected by path-parameter validation with the framework's 422
validation-error response — not the 404 — while a well-formed but
unknown identifier produces the 404 with the exact detail string
"Task not found" on all three routes. -/
theorem C4_amended_not_found (s : Store) (rawId : String) (now : Nat)
    (title : JsonVal String) (completed : JsonVal Bool) (i : Nat) :
    (pyUUID rawId = none →
      (get_task s rawId).1 = Response.validationError ∧
      (update_task s rawId now title completed).1 = Response.validationError ∧
      (delete_task s rawId).1 = Response.validationError) ∧
    (pyUUID rawId = some i → TaskStore.get s i = none →
      (get_task s rawId).1 = Response.httpError 404 "Task not found" ∧
      ((validate_TaskUpdate title completed).isSome = true →
        (update_task s rawId now title completed).1
          = Response.httpError 404 "Task not found") ∧
      (delete_task s rawId).1 = Response.httpError 404 "Task not found") := by
  constructor
  · intro hp
    exact ⟨by simp [get_task, hp], by simp [update_task, hp],
      by simp [delete_task, hp]⟩
  · intro hp hg
    refine ⟨by simp [get_task, hp, hg], ?_, ?_⟩
    · intro hv
      rcases hv' : validate_TaskUpdate title completed with _ | d
      · rw [hv'] at hv; simp at hv
      · simp [update_task, hp, hv', TaskStore.update, hg]
    · have hany := TaskStore.any_id_eq_get_isSome s i
      rw [hg] at hany
      simp only [Option.isSome_none] at hany
      simp [delete_task, TaskStore.delete, hp, hany]

unseal removeSub in
/-- Witness for the amended C4: the malformed identifier "not-a-uuid"
and the well-formed unknown identifier ending in "a" (value 10) on the
empty store. -/
theorem C4_amended_not_found_witness :
    pyUUID "not-a-uuid" = none ∧
    (get_task [] "not-a-uuid").1 = Response.validationError ∧
    pyUUID "00000000-0000-0000-0000-00000000000a" = some 10 ∧
    TaskStore.get [] 10 = none ∧
    (get_task [] "00000000-0000-0000-0000-00000000000a").1
      = Response.httpError 404 "Task not found" ∧
    (update_task [] "00000000-0000-0000-0000-00000000000a" 0 JsonVal.absent
      (JsonVal.val true)).1 = Response.httpError 404 "Task not found" ∧
    (delete_task [] "00000000-0000-0000-0000-00000000000a").1
      = Response.httpError 404 "Task not found" :=
  ⟨by decide,
    ((C4_amended_not_found [] "not-a-uuid" 0 JsonVal.absent (JsonVal.val true)
      0).1 (by decide)).1,
    by decide, by decide,
    ((C4_amended_not_found [] "00000000-0000-0000-0000-00000000000a" 0
      JsonVal.absent (JsonVal.val true) 10).2 (by decide) (by decide)).1,
    ((C4_amended_not_found [] "00000000-0000-0000-0000-00000000000a" 0
      JsonVal.absent (JsonVal.val true) 10).2 (by decide) (by decide)).2.1
      (by decide),
    ((C4_amended_not_found [] "00000000-0000-0000-0000-00000000000a" 0
      JsonVal.absent (JsonVal.val true) 10).2 (by decide) (by decide)).2.2⟩

end App
